import Mathlib

/-!
Verification development for the cbadv-rs client library.

The embedding translates the request-signing and transport layer
(src/utils.rs) and the paginated account lookup (src/account.rs) into Lean.

Conventions of the embedding:
* Rust `u8` bytes and `u32` words are `Nat` with explicit reduction
  `% 256` / `% 2^32` where overflow matters.
* The external crates `sha2`, `hmac` and `hex` are embedded as the standard
  algorithms they implement (FIPS 180-4 SHA-256, RFC 2104 HMAC, lowercase
  hex); concrete test vectors below check the embedding against the
  published digests.
* `time::now()` is a clock effect: the sampled timestamp becomes an explicit
  argument of the embedded functions.
* The network is an effect: each transport call takes the outcome of the
  HTTP exchange (`Option Response`, `none` for a transport-level failure)
  as an explicit argument, and returns the request it built (URL and header
  map) next to the classified result.
-/

namespace CbAdv

set_option maxRecDepth 100000

/-- Reduction of a `Nat` to a 32-bit word, the explicit model of `u32`
wrap-around arithmetic. -/
def w32 (n : Nat) : Nat := n % 4294967296

/-- Right rotation of a 32-bit word by `n` bits. -/
def rotr (x n : Nat) : Nat := w32 ((x >>> n) ||| (x <<< (32 - n)))

/-- Big-endian byte decomposition of `v` into `n` bytes, most significant
first. -/
def beBytes (n v : Nat) : List Nat :=
  (List.range n).map (fun i => (v >>> (8 * (n - 1 - i))) % 256)

/-- Big-endian 32-bit word from a list of bytes. -/
def beWord (bs : List Nat) : Nat := bs.foldl (fun acc b => acc * 256 + b) 0

/-- Intermediate hash value of SHA-256: the eight 32-bit words `H0 .. H7` of
FIPS 180-4, kept as a record so the digest length is fixed by construction. -/
structure Sha256State where
  h0 : Nat
  h1 : Nat
  h2 : Nat
  h3 : Nat
  h4 : Nat
  h5 : Nat
  h6 : Nat
  h7 : Nat

/-- Initial hash value of SHA-256 (FIPS 180-4, 5.3.3). -/
def sha256Init : Sha256State :=
  ⟨1779033703, 3144134277, 1013904242, 2773480762,
   1359893119, 2600822924, 528734635, 1541459225⟩

/-- Round constants of SHA-256 (FIPS 180-4, 4.2.2). -/
def sha256K : List Nat :=
  [1116352408, 1899447441, 3049323471, 3921009573, 961987163, 1508970993,
   2453635748, 2870763221, 3624381080, 310598401, 607225278, 1426881987,
   1925078388, 2162078206, 2614888103, 3248222580, 3835390401, 4022224774,
   264347078, 604807628, 770255983, 1249150122, 1555081692, 1996064986,
   2554220882, 2821834349, 2952996808, 3210313671, 3336571891, 3584528711,
   113926993, 338241895, 666307205, 773529912, 1294757372, 1396182291,
   1695183700, 1986661051, 2177026350, 2456956037, 2730485921, 2820302411,
   3259730800, 3345764771, 3516065817, 3600352804, 4094571909, 275423344,
   430227734, 506948616, 659060556, 883997877, 958139571, 1322822218,
   1537002063, 1747873779, 1955562222, 2024104815, 2227730452, 2361852424,
   2428436474, 2756734187, 3204031479, 3329325298]

/-- Small sigma 0 message-schedule function of SHA-256. -/
def ssig0 (x : Nat) : Nat := (rotr x 7) ^^^ (rotr x 18) ^^^ (x >>> 3)

/-- Small sigma 1 message-schedule function of SHA-256. -/
def ssig1 (x : Nat) : Nat := (rotr x 17) ^^^ (rotr x 19) ^^^ (x >>> 10)

/-- Big Sigma 0 round function of SHA-256. -/
def bsig0 (x : Nat) : Nat := (rotr x 2) ^^^ (rotr x 13) ^^^ (rotr x 22)

/-- Big Sigma 1 round function of SHA-256. -/
def bsig1 (x : Nat) : Nat := (rotr x 6) ^^^ (rotr x 11) ^^^ (rotr x 25)

/-- Choice function of SHA-256. -/
def chf (x y z : Nat) : Nat := (x &&& y) ^^^ ((x ^^^ 0xffffffff) &&& z)

/-- Majority function of SHA-256. -/
def maj (x y z : Nat) : Nat := (x &&& y) ^^^ (x &&& z) ^^^ (y &&& z)

/-- Extension of the 16-word block to the full message schedule: each step
appends word `W[t] = ssig1 W[t-2] + W[t-7] + ssig0 W[t-15] + W[t-16]`. -/
def scheduleExtend : Nat → List Nat → List Nat
  | 0, ws => ws
  | n + 1, ws =>
    let l := ws.length
    let next := w32 (ssig1 (ws.getD (l - 2) 0) + ws.getD (l - 7) 0 +
                     ssig0 (ws.getD (l - 15) 0) + ws.getD (l - 16) 0)
    scheduleExtend n (ws ++ [next])

/-- One round of the SHA-256 compression function, consuming the pair of a
round constant and a schedule word. -/
def sha256Round (st : Sha256State) (kw : Nat × Nat) : Sha256State :=
  let t1 := w32 (st.h7 + bsig1 st.h4 + chf st.h4 st.h5 st.h6 + kw.1 + kw.2)
  let t2 := w32 (bsig0 st.h0 + maj st.h0 st.h1 st.h2)
  ⟨w32 (t1 + t2), st.h0, st.h1, st.h2, w32 (st.h3 + t1), st.h4, st.h5, st.h6⟩

/-- Componentwise 32-bit addition of two hash states. -/
def stateAdd (x y : Sha256State) : Sha256State :=
  ⟨w32 (x.h0 + y.h0), w32 (x.h1 + y.h1), w32 (x.h2 + y.h2), w32 (x.h3 + y.h3),
   w32 (x.h4 + y.h4), w32 (x.h5 + y.h5), w32 (x.h6 + y.h6), w32 (x.h7 + y.h7)⟩

/-- Processing of one 64-byte block: parse 16 big-endian words, extend to the
64-word schedule, run the 64 rounds and add the result to the chaining
state. -/
def sha256Block (st : Sha256State) (block : List Nat) : Sha256State :=
  let ws16 := (List.range 16).map (fun i => beWord ((block.drop (4 * i)).take 4))
  let ws := scheduleExtend 48 ws16
  stateAdd st ((sha256K.zip ws).foldl sha256Round st)

/-- Padding of SHA-256: append `0x80`, zero bytes to 56 mod 64, then the
message length in bits as 8 big-endian bytes. -/
def sha256Pad (msg : List Nat) : List Nat :=
  let zeros := (64 - ((msg.length + 9) % 64)) % 64
  msg ++ [0x80] ++ List.replicate zeros 0 ++ beBytes 8 (msg.length * 8)

/-- Splitting of a byte list into 64-byte blocks; the first argument is fuel,
always called with the length of the list. -/
def toBlocks : Nat → List Nat → List (List Nat)
  | 0, _ => []
  | _, [] => []
  | fuel + 1, bs => bs.take 64 :: toBlocks fuel (bs.drop 64)

/-- Big-endian bytes of a hash state, the 32-byte SHA-256 digest. -/
def stateBytes (st : Sha256State) : List Nat :=
  beBytes 4 st.h0 ++ beBytes 4 st.h1 ++ beBytes 4 st.h2 ++ beBytes 4 st.h3 ++
  beBytes 4 st.h4 ++ beBytes 4 st.h5 ++ beBytes 4 st.h6 ++ beBytes 4 st.h7

/-- SHA-256 digest (32 bytes) of a byte message, the embedding of the `sha2`
crate's `Sha256`. -/
def sha256 (msg : List Nat) : List Nat :=
  let padded := sha256Pad msg
  stateBytes ((toBlocks padded.length padded).foldl sha256Block sha256Init)

/-- HMAC-SHA256 (RFC 2104) of a message under a key of arbitrary length, the
embedding of the `hmac` crate's `Hmac<Sha256>`: a key longer than the 64-byte
block is first hashed, any key is then zero-padded to the block size, so key
initialisation succeeds for every key, the empty key included. -/
def hmacSha256 (key msg : List Nat) : List Nat :=
  let k0 := if key.length > 64 then sha256 key else key
  let kb := k0 ++ List.replicate (64 - k0.length) 0
  sha256 ((kb.map (fun b => b ^^^ 0x5c)) ++
          sha256 ((kb.map (fun b => b ^^^ 0x36)) ++ msg))

/-- Lowercase hexadecimal digit table. -/
def hexDigits : List Char := "0123456789abcdef".data

/-- Lowercase hexadecimal digit of a value below 16. -/
def hexDigit (n : Nat) : Char := hexDigits.getD n '0'

/-- Lowercase hexadecimal rendering of one byte, two digits. -/
def hexByte (b : Nat) : List Char := [hexDigit (b / 16), hexDigit (b % 16)]

/-- Lowercase hexadecimal encoding of a byte list, the embedding of
`hex::encode`. -/
def hexEncode (bs : List Nat) : String := ⟨(bs.map hexByte).flatten⟩

/-- UTF-8 encoding of one character (RFC 3629). -/
def utf8Char (c : Char) : List Nat :=
  let n := c.toNat
  if n < 0x80 then [n]
  else if n < 0x800 then
    [0xc0 ||| (n >>> 6), 0x80 ||| (n &&& 0x3f)]
  else if n < 0x10000 then
    [0xe0 ||| (n >>> 12), 0x80 ||| ((n >>> 6) &&& 0x3f), 0x80 ||| (n &&& 0x3f)]
  else
    [0xf0 ||| (n >>> 18), 0x80 ||| ((n >>> 12) &&& 0x3f),
     0x80 ||| ((n >>> 6) &&& 0x3f), 0x80 ||| (n &&& 0x3f)]

/-- UTF-8 bytes of a string, the embedding of Rust's `str::as_bytes` (Rust
strings are UTF-8). -/
def utf8 (s : String) : List Nat := (s.data.map utf8Char).flatten

/-- UTF-8 encoding distributes over string concatenation: hashing the bytes
of `s ++ t` is hashing the bytes of `s` followed by the bytes of `t`. -/
theorem utf8_append (s t : String) : utf8 (s ++ t) = utf8 s ++ utf8 t := by
  simp [utf8, String.data_append]

-- Test vectors checking the embedding of SHA-256 and HMAC-SHA256 against
-- published digests (FIPS 180-4 examples and RFC-style HMAC vectors).
example : hexEncode (sha256 []) =
    "e3b0c44298fc1c149afbf4c8996fb92427ae41e4649b934ca495991b7852b855" := by
  decide

example : hexEncode (sha256 (utf8 "abc")) =
    "ba7816bf8f01cfea414140de5dae2223b00361a396177a9cb410ff61f20015ad" := by
  decide

example : hexEncode (hmacSha256 (utf8 "key") (utf8 "msg")) =
    "2d93cbc1be167bcb1637a4a23cbff01a7878f0c50ee833954ea5221bb1b8c628" := by
  decide

example : hexEncode (hmacSha256 [] (utf8 "msg")) =
    "5f576a8d68fe4fb7eb823227246353c0870c3b0e878997341db1226b4bd88d61" := by
  decide

example : hexEncode (hmacSha256 (List.replicate 70 107) (utf8 "msg")) =
    "869b65e96f6aff0cfcb55ed40163b7d46e124a4213fa2232d61cca5e4a21256e" := by
  decide

/-- Error taxonomy of the library, the embedding of `CBAdvError` in
src/utils.rs. -/
inductive CBAdvError where
  /-- Unable to parse JSON successfully. -/
  | BadParse (msg : String)
  /-- Non-200 status code received. -/
  | BadStatus (msg : String)
  /-- Could not connect to the service. -/
  | BadConnection (msg : String)
  /-- Nothing to do. -/
  | NothingToDo (msg : String)
  /-- Unable to locate resource. -/
  | NotFound (msg : String)
  /-- General unknown error. -/
  | Unknown (msg : String)
deriving DecidableEq

/-- Result alias of src/utils.rs: `std::result::Result<T, CBAdvError>`. -/
abbrev Result (α : Type) := Except CBAdvError α

/-- Root URI for the API service (`ROOT_URI` in src/utils.rs). -/
def ROOT_URI : String := "https://api.coinbase.com"

/-- HTTP methods used by the Signer (`reqwest::Method` values that occur in
the source). -/
inductive Method where
  | GET
  | POST
deriving DecidableEq

/-- Display rendering of a method, as interpolated by `format!` in the
prehash. -/
def Method.str : Method → String
  | .GET => "GET"
  | .POST => "POST"

/-- Header map as the list of name-value pairs in insertion order, the
embedding of `reqwest::header::HeaderMap`. -/
abbrev HeaderMap := List (String × String)

/-- Insertion into a header map: `HeaderMap::insert` replaces any existing
entry of the same name. -/
def hmInsert (h : HeaderMap) (name value : String) : HeaderMap :=
  (h.filter (fun kv => !(kv.1 == name))) ++ [(name, value)]

/-- Lookup of a header by name. -/
def hmGet (h : HeaderMap) (name : String) : Option String :=
  (h.find? (fun kv => kv.1 == name)).map (fun kv => kv.2)

/-- Signer of src/utils.rs: API credentials.  The `reqwest::Client` handle is
omitted from the embedding; it carries no signing-relevant state. -/
structure Signer where
  api_key : String
  api_secret : String

/-- Signature headers for a request, the embedding of
`Signer::get_http_signature`.  The timestamp, sampled inside the Rust
function via `time::now()`, is an explicit argument of the embedding. -/
def Signer.get_http_signature (s : Signer) (timestamp : String)
    (method : Method) (resource body : String) : HeaderMap :=
  let prehash := timestamp ++ method.str ++ resource ++ body
  let sign := hexEncode (hmacSha256 (utf8 s.api_secret) (utf8 prehash))
  hmInsert (hmInsert (hmInsert [] "CB-ACCESS-KEY" s.api_key)
    "CB-ACCESS-SIGN" sign) "CB-ACCESS-TIMESTAMP" timestamp

/-- Signature for a websocket request, the embedding of
`Signer::get_ws_signature`. -/
def Signer.get_ws_signature (s : Signer) (timestamp channel : String)
    (product_ids : List String) : String :=
  let prehash := timestamp ++ channel ++ String.intercalate "," product_ids
  hexEncode (hmacSha256 (utf8 s.api_secret) (utf8 prehash))

/-- Response of the HTTP client as far as the Signer inspects it: the status
code, and the outcome of reading the body as text (`none` when `.text()`
fails). -/
structure Response where
  status : Nat
  text : Option String
deriving DecidableEq

/-- Outcome of the network send: `some` response, or `none` for a
transport-level failure (the `Err` arm of `reqwest`'s send). -/
abbrev SendOutcome := Option Response

/-- HTTP GET, the embedding of `Signer::get`.  The sampled timestamp and the
outcome of the network send are explicit arguments; the value is the request
that was built (URL and headers) next to the classified result. -/
def Signer.get (s : Signer) (resource params : String) (timestamp : String)
    (outcome : SendOutcome) : (String × HeaderMap) × Result Response :=
  let sep := if params.isEmpty then "" else "?"
  let target := sep ++ params
  let url := ROOT_URI ++ resource ++ target
  let headers := s.get_http_signature timestamp Method.GET resource ""
  let result : Result Response :=
    match outcome with
    | some value =>
      if value.status == 200 then .ok value
      else
        let code := "Status Code: " ++ toString value.status
        match value.text with
        | some t => .error (.BadStatus (code ++ ", " ++ t))
        | none => .error (.BadStatus (code ++ ", could not parse error message"))
    | none => .error (.Unknown "GET request to API")
  ((url, headers), result)

/-- HTTP POST, the embedding of `Signer::post`.  The generic `Serialize` body
enters as its serialized JSON text `body_str` (the Rust function serializes
once, before signing, and transmits exactly those bytes). -/
def Signer.post (s : Signer) (resource params body_str : String)
    (timestamp : String) (outcome : SendOutcome) :
    (String × HeaderMap) × Result Response :=
  let sep := if params.isEmpty then "" else "?"
  let target := sep ++ params
  let url := ROOT_URI ++ resource ++ target
  let headers := hmInsert (s.get_http_signature timestamp Method.POST resource body_str)
    "Content-Type" "application/json"
  let result : Result Response :=
    match outcome with
    | some value =>
      if value.status == 200 then .ok value
      else
        let code := "Status Code: " ++ toString value.status
        match value.text with
        | some t => .error (.BadStatus (code ++ ", " ++ t))
        | none => .error (.BadStatus (code ++ ", could not parse error message"))
    | none => .error (.Unknown "POST request to API")
  ((url, headers), result)

/-- Balance of src/account.rs. -/
structure Balance where
  value : String
  currency : String
deriving DecidableEq

/-- Account of src/account.rs (the Rust field `r#type` is `type` here). -/
structure Account where
  uuid : String
  name : String
  currency : String
  available_balance : Balance
  default : Bool
  active : Bool
  created_at : String
  updated_at : String
  deleted_at : Option String
  type : String
  ready : Bool
  hold : Balance
deriving DecidableEq

/-- Listing response of src/account.rs. -/
structure ListedAccounts where
  accounts : List Account
  has_next : Bool
  cursor : String
  size : Int
deriving DecidableEq

/-- Optional parameters of the List Account request (src/account.rs); the
Rust `Default` derive gives `{limit = none, cursor = none}`. -/
structure ListAccountsParams where
  limit : Option Int := none
  cursor : Option String := none
deriving DecidableEq

/-- Conversion of the listing parameters into HTTP request parameters, the
embedding of `ListAccountsParams::to_params`.  The Rust `params[1..]` slice
drops the single leading byte, which is always the ASCII character `&`. -/
def ListAccountsParams.to_params (p : ListAccountsParams) : String :=
  let params := ""
  let params := match p.limit with
    | some v => params ++ "&limit=" ++ toString v
    | none => params
  let params := match p.cursor with
    | some v => params ++ "&cursor=" ++ v
    | none => params
  if params.isEmpty then params else params.drop 1

/-- Resource of the Account API (`AccountAPI::RESOURCE`). -/
def accountResource : String := "/api/v3/brokerage/accounts"

/-- Recursive body of `AccountAPI::get_by_id`, parameterised by the behaviour
of `get_bulk` (the network is an effect: `server` maps the request parameters
to the listing the call would produce).  Extra to the Rust code, the value
carries the parameters of every listing request issued, and the recursion
spends explicit fuel: `none` means the fuel ran out before the Rust recursion
would have returned.  The Rust `position` on `currency == id` followed by
`swap_remove` at the found index returns exactly the first account satisfying
the predicate, embedded as `find?`. -/
def getByIdAux (server : ListAccountsParams → Result ListedAccounts)
    (id : String) :
    Nat → ListAccountsParams → List ListAccountsParams × Option (Result Account)
  | 0, _ => ([], none)
  | fuel + 1, params =>
    match server params with
    | .error e => ([params], some (.error e))
    | .ok listed =>
      match listed.accounts.find? (fun r => r.currency == id) with
      | some account => ([params], some (.ok account))
      | none =>
        if !listed.has_next then
          ([params], some (.error (.NotFound "no matching ids")))
        else
          let rest := getByIdAux server id fuel
            { params with cursor := some listed.cursor }
          (params :: rest.1, rest.2)

/-- Embedding of `AccountAPI::get_by_id`: the optional caller parameters
default to `ListAccountsParams::default()`, and the chain of listing requests
proceeds as in `getByIdAux`. -/
def get_by_id (server : ListAccountsParams → Result ListedAccounts)
    (fuel : Nat) (id : String) (params : Option ListAccountsParams) :
    List ListAccountsParams × Option (Result Account) :=
  getByIdAux server id fuel (params.getD {})

/-! Helper lemmas. -/

/-- Every character emitted by the hexadecimal digit table is one of the 16
lowercase digits (out-of-range indices fall back to the digit `0`). -/
theorem hexDigit_mem (n : Nat) : hexDigits.contains (hexDigit n) = true := by
  by_cases h : n < 16
  · interval_cases n <;> decide
  · have hlen : hexDigits.length ≤ n := by
      rw [show hexDigits.length = 16 from rfl]
      omega
    rw [hexDigit, List.getD_eq_default _ _ hlen]
    decide

/-- Hex encoding produces only lowercase hexadecimal digits. -/
theorem hexEncode_lower (bs : List Nat) :
    ((hexEncode bs).data.all (fun c => hexDigits.contains c)) = true := by
  simp only [hexEncode, List.all_eq_true]
  intro c hc
  rw [List.mem_flatten] at hc
  obtain ⟨l, hl, hcl⟩ := hc
  rw [List.mem_map] at hl
  obtain ⟨b, -, rfl⟩ := hl
  have hcl2 : c = hexDigit (b / 16) ∨ c = hexDigit (b % 16) := by
    simpa [hexByte] using hcl
  rcases hcl2 with rfl | rfl <;> exact hexDigit_mem _

/-- A SHA-256 digest is 32 bytes. -/
theorem sha256_length (msg : List Nat) : (sha256 msg).length = 32 := by
  simp [sha256, stateBytes, beBytes]

/-- An HMAC-SHA256 digest is 32 bytes. -/
theorem hmacSha256_length (key msg : List Nat) :
    (hmacSha256 key msg).length = 32 := by
  simp [hmacSha256, sha256_length]

/-- Hex encoding doubles the length. -/
theorem hexEncode_length (bs : List Nat) :
    (hexEncode bs).length = 2 * bs.length := by
  induction bs with
  | nil => rfl
  | cons b bs ih =>
    simp only [hexEncode, String.length, List.map_cons, List.flatten_cons,
      List.length_append, hexByte, List.length_cons, List.length_nil] at *
    omega

/-! Claims about the signature engine. -/

/-- C1: the HTTP signature is the lowercase hex HMAC-SHA256 of the byte
concatenation `timestamp || method || resource || body` under the secret,
placed in `CB-ACCESS-SIGN` next to `CB-ACCESS-KEY` (the api_key) and
`CB-ACCESS-TIMESTAMP` (the timestamp). -/
theorem http_signature_correct (key secret timestamp resource body : String)
    (method : Method) :
    hmGet ((Signer.mk key secret).get_http_signature timestamp method resource body)
        "CB-ACCESS-SIGN"
      = some (hexEncode (hmacSha256 (utf8 secret)
          (utf8 timestamp ++ utf8 method.str ++ utf8 resource ++ utf8 body)))
    ∧ hmGet ((Signer.mk key secret).get_http_signature timestamp method resource body)
        "CB-ACCESS-KEY" = some key
    ∧ hmGet ((Signer.mk key secret).get_http_signature timestamp method resource body)
        "CB-ACCESS-TIMESTAMP" = some timestamp
    ∧ ((hexEncode (hmacSha256 (utf8 secret)
          (utf8 timestamp ++ utf8 method.str ++ utf8 resource ++ utf8 body))).data.all
        (fun c => hexDigits.contains c)) = true := by
  refine ⟨?_, ?_, ?_, hexEncode_lower _⟩ <;>
    simp [Signer.get_http_signature, hmInsert, hmGet, List.find?, List.filter,
      utf8_append]

/-- C4: the computed signature does not depend on the query string.  Two
calls (GET or POST) with the same timestamp, resource, and body but different
query-parameter strings carry the same `CB-ACCESS-SIGN` header; the query
string affects only the request URL, never the prehash. -/
theorem query_excluded (s : Signer)
    (resource params1 params2 body_str timestamp : String)
    (o1 o2 : SendOutcome) (hne : params1 ≠ params2) :
    hmGet (s.get resource params1 timestamp o1).1.2 "CB-ACCESS-SIGN"
      = hmGet (s.get resource params2 timestamp o2).1.2 "CB-ACCESS-SIGN"
    ∧ hmGet (s.post resource params1 body_str timestamp o1).1.2 "CB-ACCESS-SIGN"
      = hmGet (s.post resource params2 body_str timestamp o2).1.2 "CB-ACCESS-SIGN" :=
  ⟨rfl, rfl⟩

/-- Witness for C4 at concrete distinct query strings. -/
theorem query_excluded_witness :
    ("limit=5" : String) ≠ "limit=9"
    ∧ (hmGet ((Signer.mk "key" "sec").get accountResource "limit=5" "1700000000" none).1.2
          "CB-ACCESS-SIGN"
        = hmGet ((Signer.mk "key" "sec").get accountResource "limit=9" "1700000000" none).1.2
          "CB-ACCESS-SIGN"
      ∧ hmGet ((Signer.mk "key" "sec").post accountResource "limit=5" "null" "1700000000" none).1.2
          "CB-ACCESS-SIGN"
        = hmGet ((Signer.mk "key" "sec").post accountResource "limit=9" "null" "1700000000" none).1.2
          "CB-ACCESS-SIGN") :=
  ⟨by decide, query_excluded _ _ _ _ _ _ _ _ (by decide)⟩

/-- C8: the websocket-channel signature is the lowercase hex HMAC-SHA256 of
`timestamp || channel || join(ids, ",")` under the secret, and that
concatenation scheme is distinct from the HTTP one: for equivalent-looking
inputs (channel playing the resource's role, the joined ids the body's), the
two signatures differ. -/
theorem ws_signature_correct :
    (∀ (s : Signer) (timestamp channel : String) (ids : List String),
      s.get_ws_signature timestamp channel ids
        = hexEncode (hmacSha256 (utf8 s.api_secret)
            (utf8 timestamp ++ utf8 channel ++ utf8 (String.intercalate "," ids))))
    ∧ hmGet ((Signer.mk "key" "sec").get_http_signature "1700000000" Method.GET
          "level2" "BTC-USD") "CB-ACCESS-SIGN"
        ≠ some ((Signer.mk "key" "sec").get_ws_signature "1700000000" "level2"
          ["BTC-USD"]) :=
  ⟨fun s timestamp channel ids => by
    simp [Signer.get_ws_signature, utf8_append], by decide⟩

/-- C7 counterexample: constructing a signature with the EMPTY secret is not
a panic-class failure.  HMAC-SHA256 key initialisation accepts keys of every
length (a short key is zero-padded to the block, a long one hashed first), so
the `expect` guard in `get_http_signature` is unreachable: the empty secret
signs normally, and the produced header is the genuine HMAC-SHA256 digest
under the empty key (checked against an externally computed vector). -/
theorem empty_secret_signs :
    hmGet ((Signer.mk "key" "").get_http_signature "1700000000" Method.GET
        accountResource "") "CB-ACCESS-SIGN"
      = some "01a1b21e2e2a393de50903e7a9471281dedf76cefeb128c40059920ca45ddbf6" := by
  decide

/-- C7 amended: signing never fails for ANY secret, the empty string
included: HMAC-SHA256 admits keys of every length, so the key-initialisation
failure path is unreachable and every call returns a well-formed 64-character
signature header. -/
theorem signing_total (key secret timestamp resource body : String)
    (m : Method) :
    ∃ sign, hmGet ((Signer.mk key secret).get_http_signature timestamp m resource body)
        "CB-ACCESS-SIGN" = some sign ∧ sign.length = 64 := by
  refine ⟨hexEncode (hmacSha256 (utf8 secret)
    (utf8 (timestamp ++ m.str ++ resource ++ body))), ?_, ?_⟩
  · simp [Signer.get_http_signature, hmInsert, hmGet, List.find?, List.filter]
  · simp [hexEncode_length, hmacSha256_length]

/-- Discriminator for the `BadConnection` error kind. -/
def isBadConnection : Result Response → Bool
  | .error (.BadConnection _) => true
  | _ => false

/-- C3 counterexample: on a transport-level failure (no HTTP response
obtained) both operations return `Unknown`, not `BadConnection`. -/
theorem transport_failure_not_badconnection :
    ((Signer.mk "key" "sec").get "/r" "" "1700000000" none).2
      = Except.error (CBAdvError.Unknown "GET request to API")
    ∧ isBadConnection ((Signer.mk "key" "sec").get "/r" "" "1700000000" none).2 = false
    ∧ ((Signer.mk "key" "sec").post "/r" "" "null" "1700000000" none).2
      = Except.error (CBAdvError.Unknown "POST request to API")
    ∧ isBadConnection ((Signer.mk "key" "sec").post "/r" "" "null" "1700000000" none).2 = false :=
  ⟨rfl, rfl, rfl, rfl⟩

/-- C3 amended: for every get or post call in which the transport itself
fails (no HTTP response is obtained), the operation returns an `Unknown`
error carrying "GET request to API" resp. "POST request to API"; the
`BadConnection` variant is never constructed by the transport layer. -/
theorem transport_failure_unknown (s : Signer)
    (resource params body_str timestamp : String) :
    (s.get resource params timestamp none).2
      = Except.error (CBAdvError.Unknown "GET request to API")
    ∧ (s.post resource params body_str timestamp none).2
      = Except.error (CBAdvError.Unknown "POST request to API") :=
  ⟨rfl, rfl⟩

/-- C2: when the HTTP call completes with a response, status 200 yields the
raw response as a success; any other status yields `BadStatus` whose detail
holds the numeric status code and the body text, or the placeholder
"could not parse error message" when the body cannot be read. -/
theorem status_classification (s : Signer)
    (resource params body_str timestamp : String) (r : Response) :
    (r.status = 200 →
      (s.get resource params timestamp (some r)).2 = Except.ok r
      ∧ (s.post resource params body_str timestamp (some r)).2 = Except.ok r)
    ∧ (∀ t, r.status ≠ 200 → r.text = some t →
      (s.get resource params timestamp (some r)).2
        = Except.error (CBAdvError.BadStatus
            ("Status Code: " ++ toString r.status ++ ", " ++ t))
      ∧ (s.post resource params body_str timestamp (some r)).2
        = Except.error (CBAdvError.BadStatus
            ("Status Code: " ++ toString r.status ++ ", " ++ t)))
    ∧ (r.status ≠ 200 → r.text = none →
      (s.get resource params timestamp (some r)).2
        = Except.error (CBAdvError.BadStatus
            ("Status Code: " ++ toString r.status ++ ", could not parse error message"))
      ∧ (s.post resource params body_str timestamp (some r)).2
        = Except.error (CBAdvError.BadStatus
            ("Status Code: " ++ toString r.status ++ ", could not parse error message"))) := by
  refine ⟨fun h => ?_, fun t h ht => ?_, fun h ht => ?_⟩ <;>
    constructor <;>
      simp [Signer.get, Signer.post, h, beq_iff_eq, *]

/-- Witness for C2 at a 200, a 404 with readable body, and a 500 with an
unreadable body. -/
theorem status_classification_witness :
    ((Signer.mk "key" "sec").get "/r" "" "t0" (some ⟨200, some "body"⟩)).2
      = Except.ok ⟨200, some "body"⟩
    ∧ ((Signer.mk "key" "sec").post "/r" "" "null" "t0" (some ⟨200, some "body"⟩)).2
      = Except.ok ⟨200, some "body"⟩
    ∧ ((Signer.mk "key" "sec").get "/r" "" "t0" (some ⟨404, some "oops"⟩)).2
      = Except.error (CBAdvError.BadStatus "Status Code: 404, oops")
    ∧ ((Signer.mk "key" "sec").post "/r" "" "null" "t0" (some ⟨404, some "oops"⟩)).2
      = Except.error (CBAdvError.BadStatus "Status Code: 404, oops")
    ∧ ((Signer.mk "key" "sec").get "/r" "" "t0" (some ⟨500, none⟩)).2
      = Except.error (CBAdvError.BadStatus "Status Code: 500, could not parse error message")
    ∧ ((Signer.mk "key" "sec").post "/r" "" "null" "t0" (some ⟨500, none⟩)).2
      = Except.error (CBAdvError.BadStatus "Status Code: 500, could not parse error message") := by
  have h200 := (status_classification (Signer.mk "key" "sec") "/r" "" "null" "t0"
    ⟨200, some "body"⟩).1 rfl
  have h404 := (status_classification (Signer.mk "key" "sec") "/r" "" "null" "t0"
    ⟨404, some "oops"⟩).2.1 "oops" (by decide) rfl
  have h500 := (status_classification (Signer.mk "key" "sec") "/r" "" "null" "t0"
    ⟨500, none⟩).2.2 (by decide) rfl
  exact ⟨h200.1, h200.2, h404.1, h404.2, h500.1, h500.2⟩

/-- Strings of the parameter builder headed by the ampersand character are
nonempty, and dropping one character removes exactly that ampersand. -/
theorem amp_core (u : String) :
    (String.mk ('&' :: u.data)).isEmpty = false
    ∧ (String.mk ('&' :: u.data)).drop 1 = u := by
  constructor
  · by_contra h
    rw [Bool.not_eq_false, String.isEmpty_iff] at h
    have h2 := congrArg String.data h
    simp at h2
  · apply String.ext
    rw [String.data_drop]
    rfl

/-- Reduction of the builder's final conditional on an ampersand-headed
string. -/
theorem amp_ite (u : String) :
    (if (String.mk ('&' :: u.data)).isEmpty then String.mk ('&' :: u.data)
     else (String.mk ('&' :: u.data)).drop 1) = u := by
  simp [(amp_core u).1, (amp_core u).2]

/-- Shape of the builder string when only the limit is set. -/
theorem shape_limit (x : String) :
    ("" ++ ("&limit=" ++ x)) = String.mk ('&' :: ("limit=" ++ x).data) := rfl

/-- Shape of the builder string when only the cursor is set. -/
theorem shape_cursor (c : String) :
    ("" ++ ("&cursor=" ++ c)) = String.mk ('&' :: ("cursor=" ++ c).data) := rfl

/-- Shape of the builder string when both fields are set. -/
theorem shape_both (x c : String) :
    (((("" ++ "&limit=") ++ x) ++ "&cursor=") ++ c)
      = String.mk ('&' :: ("limit=" ++ x ++ "&cursor=" ++ c).data) := rfl

/-- A string with a nonempty left part is nonempty. -/
theorem append_ne_empty (y x : String) (hy : y.length ≠ 0) : (y ++ x) ≠ "" := by
  intro h
  have hlen := congrArg String.length h
  rw [String.length_append, show ("" : String).length = 0 from rfl] at hlen
  omega

/-- C9: `to_params` returns the empty string exactly when both `limit` and
`cursor` are unset; otherwise it returns the set fields as `&`-separated
`key=value` pairs, limit (when set) before cursor (when set), with no leading
`&` character. -/
theorem to_params_spec (p : ListAccountsParams) :
    (p.to_params = "" ↔ p.limit = none ∧ p.cursor = none)
    ∧ (∀ l, p.limit = some l → p.cursor = none →
        p.to_params = "limit=" ++ toString l)
    ∧ (∀ c, p.limit = none → p.cursor = some c →
        p.to_params = "cursor=" ++ c)
    ∧ (∀ l c, p.limit = some l → p.cursor = some c →
        p.to_params = "limit=" ++ toString l ++ "&cursor=" ++ c) := by
  have hl : ∀ v : Int, ListAccountsParams.to_params ⟨some v, none⟩
      = "limit=" ++ toString v := by
    intro v
    show (if ("" ++ ("&limit=" ++ toString v)).isEmpty
        then "" ++ ("&limit=" ++ toString v)
        else ("" ++ ("&limit=" ++ toString v)).drop 1) = "limit=" ++ toString v
    rw [shape_limit]
    exact amp_ite _
  have hc : ∀ c : String, ListAccountsParams.to_params ⟨none, some c⟩
      = "cursor=" ++ c := by
    intro c
    show (if ("" ++ ("&cursor=" ++ c)).isEmpty
        then "" ++ ("&cursor=" ++ c)
        else ("" ++ ("&cursor=" ++ c)).drop 1) = "cursor=" ++ c
    rw [shape_cursor]
    exact amp_ite _
  have hlc : ∀ (v : Int) (c : String), ListAccountsParams.to_params ⟨some v, some c⟩
      = "limit=" ++ toString v ++ "&cursor=" ++ c := by
    intro v c
    show (if (((("" ++ "&limit=") ++ toString v) ++ "&cursor=") ++ c).isEmpty
        then ((("" ++ "&limit=") ++ toString v) ++ "&cursor=") ++ c
        else (((("" ++ "&limit=") ++ toString v) ++ "&cursor=") ++ c).drop 1)
      = "limit=" ++ toString v ++ "&cursor=" ++ c
    rw [shape_both]
    exact amp_ite _
  obtain ⟨limit, cursor⟩ := p
  cases limit with
  | none =>
    cases cursor with
    | none =>
      refine ⟨by simp [show ListAccountsParams.to_params ⟨none, none⟩ = "" from rfl],
        ?_, ?_, ?_⟩
      · intro l h
        cases h
      · intro c h h2
        cases h2
      · intro l c h
        cases h
    | some c =>
      refine ⟨?_, ?_, ?_, ?_⟩
      · rw [show (ListAccountsParams.mk none (some c)).to_params
          = ListAccountsParams.to_params ⟨none, some c⟩ from rfl, hc c]
        simp [append_ne_empty "cursor=" c (by decide)]
      · intro l h
        cases h
      · intro c2 h h2
        cases h2
        exact hc c
      · intro l c2 h
        cases h
  | some v =>
    cases cursor with
    | none =>
      refine ⟨?_, ?_, ?_, ?_⟩
      · rw [show (ListAccountsParams.mk (some v) none).to_params
          = ListAccountsParams.to_params ⟨some v, none⟩ from rfl, hl v]
        simp [append_ne_empty "limit=" (toString v) (by decide)]
      · intro l h h2
        cases h
        exact hl v
      · intro c h
        cases h
      · intro l c h h2
        cases h2
    | some c =>
      refine ⟨?_, ?_, ?_, ?_⟩
      · rw [show (ListAccountsParams.mk (some v) (some c)).to_params
          = ListAccountsParams.to_params ⟨some v, some c⟩ from rfl, hlc v c]
        have hne2 : ("limit=" ++ toString v ++ "&cursor=" ++ c) ≠ "" := by
          intro h
          have hlen := congrArg String.length h
          rw [String.length_append, String.length_append, String.length_append,
            show ("" : String).length = 0 from rfl,
            show ("limit=" : String).length = 6 from rfl] at hlen
          omega
        simp [hne2]
      · intro l h h2
        cases h2
      · intro c2 h
        cases h
      · intro l c2 h h2
        cases h
        cases h2
        exact hlc v c

/-- The server responds along the cursor chain of `pages` starting from
parameters `p`: the first request gets the first page, and each following
request, whose parameters differ only by the cursor set to the previous
page's returned cursor, gets the next page. -/
def ServesChain (server : ListAccountsParams → Result ListedAccounts) :
    ListAccountsParams → List ListedAccounts → Prop
  | _, [] => True
  | p, g :: gs =>
    server p = .ok g ∧ ServesChain server { p with cursor := some g.cursor } gs

/-- Parameter sequence of a pagination chain: the first request uses `p`, and
each following request differs only by the cursor, set to the previous page's
returned cursor. -/
def chainParams (p : ListAccountsParams) :
    List ListedAccounts → List ListAccountsParams
  | [] => []
  | g :: gs => p :: chainParams { p with cursor := some g.cursor } gs

/-- C5: when the pages before some page contain no account matching the
identifier and that page does, `get_by_id` returns the first matching
account of that page in the order the server returned the list, and issues
exactly one listing request per page up to and including the matching page
(no further requests after the match). -/
theorem get_by_id_found (server : ListAccountsParams → Result ListedAccounts)
    (id : String) (p0 : ListAccountsParams) (front : List ListedAccounts)
    (g : ListedAccounts) (a : Account) (fuel : Nat)
    (hchain : ServesChain server p0 (front ++ [g]))
    (hfront : ∀ q ∈ front, q.accounts.find? (fun r => r.currency == id) = none
      ∧ q.has_next = true)
    (hg : g.accounts.find? (fun r => r.currency == id) = some a)
    (hfuel : front.length < fuel) :
    (get_by_id server fuel id (some p0)).2 = some (.ok a)
    ∧ (get_by_id server fuel id (some p0)).1.length = front.length + 1 := by
  induction front generalizing p0 fuel with
  | nil =>
    match fuel, hfuel with
    | fuel + 1, _ =>
      obtain ⟨hs, -⟩ := hchain
      constructor <;> simp [get_by_id, getByIdAux, hs, hg]
  | cons q front ih =>
    match fuel, hfuel with
    | fuel + 1, hfuel =>
      obtain ⟨hs, hrest⟩ := hchain
      obtain ⟨hq1, hq2⟩ := hfront q (List.mem_cons_self q front)
      have ih2 := ih { p0 with cursor := some q.cursor } fuel hrest
        (fun r hr => hfront r (List.mem_cons_of_mem q hr))
        (by simp only [List.length_cons] at hfuel; omega)
      have ihres : (getByIdAux server id fuel
          { p0 with cursor := some q.cursor }).2 = some (.ok a) := ih2.1
      have ihlen : (getByIdAux server id fuel
          { p0 with cursor := some q.cursor }).1.length = front.length + 1 := ih2.2
      constructor
      · simp [get_by_id, getByIdAux, hs, hq1, hq2, ihres]
      · simp [get_by_id, getByIdAux, hs, hq1, hq2]
        omega

/-- C6: when no page contains a matching account, `get_by_id` walks the
chain — each repeated request carries the previous page's returned cursor —
and, at the first page reporting `has_next = false`, returns `NotFound`
without issuing further requests. -/
theorem get_by_id_not_found (server : ListAccountsParams → Result ListedAccounts)
    (id : String) (p0 : ListAccountsParams) (front : List ListedAccounts)
    (glast : ListedAccounts) (fuel : Nat)
    (hchain : ServesChain server p0 (front ++ [glast]))
    (hfront : ∀ q ∈ front, q.accounts.find? (fun r => r.currency == id) = none
      ∧ q.has_next = true)
    (hlast : glast.accounts.find? (fun r => r.currency == id) = none)
    (hlastnext : glast.has_next = false)
    (hfuel : front.length < fuel) :
    (get_by_id server fuel id (some p0)).2
      = some (.error (.NotFound "no matching ids"))
    ∧ (get_by_id server fuel id (some p0)).1
      = chainParams p0 (front ++ [glast]) := by
  induction front generalizing p0 fuel with
  | nil =>
    match fuel, hfuel with
    | fuel + 1, _ =>
      obtain ⟨hs, -⟩ := hchain
      constructor <;>
        simp [get_by_id, getByIdAux, chainParams, hs, hlast, hlastnext]
  | cons q front ih =>
    match fuel, hfuel with
    | fuel + 1, hfuel =>
      obtain ⟨hs, hrest⟩ := hchain
      obtain ⟨hq1, hq2⟩ := hfront q (List.mem_cons_self q front)
      have ih2 := ih { p0 with cursor := some q.cursor } fuel hrest
        (fun r hr => hfront r (List.mem_cons_of_mem q hr))
        (by simp only [List.length_cons] at hfuel; omega)
      have ihres : (getByIdAux server id fuel
          { p0 with cursor := some q.cursor }).2
        = some (.error (.NotFound "no matching ids")) := ih2.1
      have ihtrace : (getByIdAux server id fuel
          { p0 with cursor := some q.cursor }).1
        = chainParams { p0 with cursor := some q.cursor } (front ++ [glast]) := ih2.2
      constructor
      · simp [get_by_id, getByIdAux, hs, hq1, hq2, ihres]
      · simp [get_by_id, getByIdAux, chainParams, hs, hq1, hq2, ihtrace]

/-- C10: across the successive page requests of a single `get_by_id` search,
the cursor is the only parameter field that changes: every issued request
carries the caller-supplied limit unchanged (the searched identifier is a
fixed parameter of the recursion, passed unchanged by construction). -/
theorem get_by_id_frame (server : ListAccountsParams → Result ListedAccounts)
    (fuel : Nat) (id : String) (params : Option ListAccountsParams) :
    ((get_by_id server fuel id params).1.all
      (fun q => q.limit == (params.getD {}).limit)) = true := by
  have aux : ∀ (n : Nat) (p : ListAccountsParams),
      ((getByIdAux server id n p).1.all (fun q => q.limit == p.limit)) = true := by
    intro n
    induction n with
    | zero => intro p; rfl
    | succ n ih =>
      intro p
      cases hs : server p with
      | error e => simp [getByIdAux, hs]
      | ok listed =>
        cases hf : listed.accounts.find? (fun r => r.currency == id) with
        | some account => simp [getByIdAux, hs, hf]
        | none =>
          cases hn : listed.has_next with
          | false => simp [getByIdAux, hs, hf, hn]
          | true =>
            have hrec := ih { p with cursor := some listed.cursor }
            simp only [List.all_eq_true, beq_iff_eq] at hrec
            simp [getByIdAux, hs, hf, hn, List.all_eq_true, beq_iff_eq]
            exact fun q hq => hrec q hq
  exact aux fuel (params.getD {})

/-- Account with a given currency and placeholder fields, for the pagination
witnesses. -/
def mkAccount (curr : String) : Account :=
  ⟨curr ++ "-uuid", curr ++ " Wallet", curr, ⟨"1.23", curr⟩, false, true,
   "2023-01-01T00:00:00Z", "2023-01-02T00:00:00Z", none,
   "ACCOUNT_TYPE_CRYPTO", true, ⟨"0.00", curr⟩⟩

/-- First page of the two-page witness listing: no BTC account, more pages
behind the cursor. -/
def page1 : ListedAccounts :=
  ⟨[mkAccount "ETH", mkAccount "USD"], true, "cursor-1", 2⟩

/-- Second and last page of the two-page witness listing. -/
def page2 : ListedAccounts := ⟨[mkAccount "BTC"], false, "", 1⟩

/-- Two-page listing server for the witnesses: the first request (no cursor)
returns page 1, a request carrying page 1's cursor returns page 2. -/
def twoPageServer : ListAccountsParams → Result ListedAccounts := fun p =>
  match p.cursor with
  | none => .ok page1
  | some c =>
    if c == "cursor-1" then .ok page2
    else .error (.Unknown "unexpected cursor")

/-- Witness for C5: the target sits on page 2 of the two-page listing; the
search returns it after exactly 2 listing requests. -/
theorem get_by_id_found_witness :
    (get_by_id twoPageServer 2 "BTC" (some {})).2 = some (.ok (mkAccount "BTC"))
    ∧ (get_by_id twoPageServer 2 "BTC" (some {})).1.length = 2 :=
  get_by_id_found twoPageServer "BTC" {} [page1] page2 (mkAccount "BTC") 2
    ⟨rfl, rfl, trivial⟩ (by decide) (by decide) (by decide)

/-- Witness for C6: no page matches, page 2 reports `has_next = false`; the
search returns `NotFound` after walking exactly the two chained requests. -/
theorem get_by_id_not_found_witness :
    (get_by_id twoPageServer 2 "DOGE" (some {})).2
      = some (.error (.NotFound "no matching ids"))
    ∧ (get_by_id twoPageServer 2 "DOGE" (some {})).1
      = chainParams {} [page1, page2] :=
  get_by_id_not_found twoPageServer "DOGE" {} [page1] page2 2
    ⟨rfl, rfl, trivial⟩ (by decide) (by decide) (by decide) (by decide)

/-- Witness for C9 with both fields set to concrete values. -/
theorem to_params_spec_witness :
    ListAccountsParams.to_params ⟨some 5, some "abc"⟩ = "limit=5&cursor=abc" :=
  (to_params_spec ⟨some 5, some "abc"⟩).2.2.2 5 "abc" rfl rfl

end CbAdv
